import Mathlib

/-!
Shallow embedding of the dataset-manager security and storage engine:
`KeyManager` and `Encryption` (src/crypto/keyManager.js), the AI client's
config save and tag extraction (AIAPIClient), the file import pipeline
(src/utils/fileHandler.js) and category deletion (CategoryManager),
together with proofs of the spec's claims about them.

Bytes are modelled as `Nat` (values reduced mod 256 where they are drawn),
byte buffers as `List Nat`, randomness (`crypto.getRandomValues`,
`Math.random`) as an explicit stream `Nat → Nat` that operations consume
and advance, and the browser's AES-GCM / PBKDF2 primitives — which are
platform code, not part of this repository — as parameters: an
`AEADCipher` bundle for AES-GCM and an abstract derivation function for
PBKDF2, each taking exactly the arguments the source passes to
`crypto.subtle`.
-/

namespace DatasetManager

/-- Byte buffers (`Uint8Array` / `ArrayBuffer`). -/
abbrev Bytes := List Nat

/-- A stream of random values; `crypto.getRandomValues` and `Math.random`
draw from it left to right. -/
abbrev RNG := Nat → Nat

/-- Draw `n` random bytes from the front of the stream. -/
def drawBytes (n : Nat) (rng : RNG) : Bytes :=
  (List.range n).map (fun i => rng i % 256)

/-- The stream after `n` values have been consumed. -/
def advance (n : Nat) (rng : RNG) : RNG := fun i => rng (i + n)

/-- `TextEncoder.encode` restricted to the ASCII strings the code encrypts. -/
def encodeText (s : String) : Bytes := s.data.map Char.toNat

/-- `TextDecoder.decode` on such buffers. -/
def decodeText (b : Bytes) : String := ⟨b.map Char.ofNat⟩

/-- The browser's AES-GCM primitive (`crypto.subtle.encrypt` / `decrypt`),
abstract over its implementation: an authenticated cipher on a 256-bit key
(modelled as `Nat`) and an IV. `dec_enc` is GCM's decryption correctness;
`enc_iv_inj` is the ideal-cipher fact that the same plaintext under
distinct IVs yields distinct ciphertexts. -/
structure AEADCipher where
  enc : Nat → Bytes → Bytes → Bytes
  dec : Nat → Bytes → Bytes → Option Bytes
  dec_enc : ∀ k iv m, dec k iv (enc k iv m) = some m
  enc_iv_inj : ∀ k iv1 iv2 m, enc k iv1 m = enc k iv2 m → iv1 = iv2

/-- The browser's PBKDF2 derivation (`crypto.subtle.deriveKey`), abstract:
arguments are the hash name, the salt, the iteration count, the password
and the requested key length in bits, exactly as the source passes them. -/
abbrev KDF := String → Bytes → Nat → String → Nat → Nat

/-- `KeyManager`'s state: the in-memory fields `masterKey` and `salt`
together with the two `localStorage` entries it reads and writes
(`app_salt`, and `password_test` as an already-decoded
(ciphertext, iv) pair). -/
structure KMState where
  masterKey : Option Nat
  salt : Option Bytes
  storedSalt : Option Bytes
  passwordTest : Option (Bytes × Bytes)
deriving DecidableEq

/-- `KeyManager.initializeSalt`: load the persisted salt, or on first run
generate a random 16-byte salt and persist it. -/
def initSalt (st : KMState) (rng : RNG) : KMState × RNG :=
  match st.storedSalt with
  | some s => ({ st with salt := some s }, rng)
  | none =>
      ({ st with salt := some (drawBytes 16 rng),
                 storedSalt := some (drawBytes 16 rng) }, advance 16 rng)

/-- `KeyManager.isPasswordSet`: true iff a salt has been persisted. -/
def isPasswordSet (st : KMState) : Bool := st.storedSalt.isSome

/-- `KeyManager.deriveKey`: ensure a salt, then derive an AES-GCM key via
PBKDF2-HMAC-SHA256 with 100,000 iterations and 256-bit output, and hold it
as the master key. -/
def deriveKey (kdf : KDF) (st : KMState) (rng : RNG) (p : String) :
    Nat × KMState × RNG :=
  let sr := if st.salt.isSome then (st, rng) else initSalt st rng
  let key := kdf "SHA-256" (sr.1.salt.getD []) 100000 p 256
  (key, { sr.1 with masterKey := some key }, sr.2)

/-- `KeyManager.verifyPassword`: with no stored verifier return true;
otherwise derive a candidate key, attempt to decrypt the verifier and
compare against the fixed plaintext, any failure giving false. -/
def verifyPassword (C : AEADCipher) (kdf : KDF) (st : KMState) (rng : RNG)
    (p : String) : Bool × KMState × RNG :=
  match st.passwordTest with
  | none => (true, st, rng)
  | some (encrypted, iv) =>
      let kr := deriveKey kdf st rng p
      match C.dec kr.1 iv encrypted with
      | some pt => (decodeText pt == "PASSWORD_CORRECT", kr.2.1, kr.2.2)
      | none => (false, kr.2.1, kr.2.2)

/-- `KeyManager.setupPassword`: ensure a salt, derive the key, encrypt the
fixed plaintext under a fresh 12-byte IV and persist it as the verifier. -/
def setupPassword (C : AEADCipher) (kdf : KDF) (st : KMState) (rng : RNG)
    (p : String) : Bool × KMState × RNG :=
  let sr := initSalt st rng
  let kr := deriveKey kdf sr.1 sr.2 p
  let iv := drawBytes 12 kr.2.2
  let encrypted := C.enc kr.1 iv (encodeText "PASSWORD_CORRECT")
  (true, { kr.2.1 with passwordTest := some (encrypted, iv) },
   advance 12 kr.2.2)

/-- `KeyManager.getMasterKey`: throws when locked. -/
def getMasterKey (st : KMState) : Except String Nat :=
  match st.masterKey with
  | none => .error "Application is locked. Please unlock first."
  | some k => .ok k

/-- `KeyManager.lock`. -/
def lock (st : KMState) : KMState := { st with masterKey := none }

/-- `KeyManager.isUnlocked`. -/
def isUnlocked (st : KMState) : Bool := st.masterKey.isSome

/-- `Encryption.encryptFile`: require the master key, generate a fresh
random 12-byte IV (no caller-supplied IV exists in the signature), and
encrypt. Returns the (ciphertext, iv) pair. -/
def encryptFile (C : AEADCipher) (st : KMState) (rng : RNG) (m : Bytes) :
    Except String (Bytes × Bytes) × RNG :=
  match getMasterKey st with
  | .error e => (.error e, rng)
  | .ok key => (.ok (C.enc key (drawBytes 12 rng) m, drawBytes 12 rng),
                advance 12 rng)

/-- `Encryption.decryptFile`: require the master key and decrypt; an
authentication failure surfaces as an error. -/
def decryptFile (C : AEADCipher) (st : KMState) (ct iv : Bytes) :
    Except String Bytes :=
  match getMasterKey st with
  | .error e => .error e
  | .ok key =>
      match C.dec key iv ct with
      | some m => .ok m
      | none => .error "DecryptionError"

/-- `Encryption.encryptString`: UTF-8 encode then encrypt under a fresh
random 12-byte IV (base64 transport encoding elided). -/
def encryptString (C : AEADCipher) (st : KMState) (rng : RNG) (text : String) :
    Except String (Bytes × Bytes) × RNG :=
  match getMasterKey st with
  | .error e => (.error e, rng)
  | .ok key => (.ok (C.enc key (drawBytes 12 rng) (encodeText text),
                     drawBytes 12 rng),
                advance 12 rng)

/-! ### Tag extraction (`AIAPIClient.extractTags`) -/

/-- The split delimiters of the regex `[,\n;]`. -/
def isDelim (c : Char) : Bool := c = ',' || c = '\n' || c = ';'

/-- JS whitespace as it occurs in `trim` and `\s`. -/
def isWS (c : Char) : Bool :=
  c = ' ' || c = '\t' || c = '\n' || c = '\r' || c = '\x0b' || c = '\x0c'

/-- `String.prototype.split(/[,\n;]/)`: fragments between delimiter
characters, empty fragments kept. -/
def splitDelims : List Char → List (List Char)
  | [] => [[]]
  | c :: cs =>
      if isDelim c then [] :: splitDelims cs
      else
        match splitDelims cs with
        | [] => [[c]]
        | f :: rest => (c :: f) :: rest

/-- `String.prototype.trim`. -/
def trimChars (l : List Char) : List Char :=
  ((l.dropWhile isWS).reverse.dropWhile isWS).reverse

/-- `.replace(/^[-•*]\s*/, '')`: strip one leading bullet character and
the whitespace after it. -/
def stripBullet : List Char → List Char
  | [] => []
  | c :: cs =>
      if c = '-' || c = '•' || c = '*' then cs.dropWhile isWS else c :: cs

/-- `.replace(/^\d+\.\s*/, '')`: strip leading digits followed by a
period and trailing whitespace, when that pattern matches. -/
def stripNumber (l : List Char) : List Char :=
  let ds := l.takeWhile Char.isDigit
  if ds.isEmpty then l
  else
    match l.drop ds.length with
    | '.' :: rest => rest.dropWhile isWS
    | _ => l

/-- One fragment's cleanup in `extractTags`: trim, strip bullet, strip
numbered-list marker, truncate to 50 characters. -/
def cleanFragment (l : List Char) : List Char :=
  (stripNumber (stripBullet (trimChars l))).take 50

/-- `AIAPIClient.extractTags`, as the source writes it: split, clean each
fragment, push it when its length is strictly between 2 and 100, and keep
the first 10. -/
def extractTags (response : String) : List String :=
  let tags := (splitDelims response.data).foldl
    (fun acc line =>
      let cleaned := cleanFragment line
      if 2 < cleaned.length ∧ cleaned.length < 100
      then acc ++ [⟨cleaned⟩] else acc) []
  tags.take 10

/-- The spec's tag-extraction rule, written as the spec states it: split
on commas, semicolons and newlines; per fragment trim, strip a leading
bullet or numbered-list marker, truncate to 50; keep fragments of length
strictly greater than 2 and strictly less than 100; cap at the first 10,
preserving order. -/
def extractTagsRule (response : String) : List String :=
  ((((splitDelims response.data).map cleanFragment).filter
      (fun t => 2 < t.length ∧ t.length < 100)).map
      (fun l => (⟨l⟩ : String))).take 10

/-! ### AI configuration save (`AIAPIClient.saveConfig`) -/

/-- An `AIConfig` record as persisted in the `aiConfigs` store. -/
structure AIConfig where
  id : String
  name : String
  apiUrl : String
  apiKeyEncrypted : Bytes
  apiKeyIv : Bytes
  model : String
  defaultPrompt : String
  isActive : Bool
  lastTested : Nat
deriving DecidableEq

/-- The `AIAPIClient` instance fields `saveConfig` updates. -/
structure AIClientState where
  apiUrl : String
  apiKey : String
  model : String
  defaultPrompt : String
deriving DecidableEq

/-- The config object `saveConfig` receives; absent JS fields are the
empty string (falsy). -/
structure ConfigInput where
  id : String
  name : String
  apiUrl : String
  apiKey : String
  model : String
  defaultPrompt : String
deriving DecidableEq

/-- JS `a || b` on strings: the empty string is falsy. -/
def jsOr (a b : String) : String := if a = "" then b else a

/-- The hex digit of `Number.prototype.toString(16)` for values 0–15. -/
def hexChar (n : Nat) : Char :=
  if n < 10 then Char.ofNat (48 + n) else Char.ofNat (87 + n)

/-- The character positions of `generateUUID`'s template, each `x`/`y`
consuming one `Math.random()` draw. -/
def uuidChars : List Char → RNG → List Char
  | [], _ => []
  | c :: cs, rng =>
      if c = 'x' then hexChar (rng 0 % 16) :: uuidChars cs (advance 1 rng)
      else if c = 'y' then
        hexChar (rng 0 % 16 % 4 + 8) :: uuidChars cs (advance 1 rng)
      else c :: uuidChars cs rng

/-- `generateUUID` (UUID v4 from `Math.random`); consumes the template's
31 random draws. -/
def generateUUID (rng : RNG) : String × RNG :=
  (⟨uuidChars "xxxxxxxx-xxxx-4xxx-yxxx-xxxxxxxxxxxx".data rng⟩,
   advance 31 rng)

/-- IndexedDB `put` on the `aiConfigs` store (keyPath `id`): replace the
record with the same key, or insert. -/
def putConfig (l : List AIConfig) (c : AIConfig) : List AIConfig :=
  if l.any (fun x => x.id = c.id)
  then l.map (fun x => if x.id = c.id then c else x)
  else l ++ [c]

/-- The deactivation loop of `saveConfig`: every snapshot record whose id
differs from the new id is updated with `isActive := false`. -/
def deactivateOthers (store : List AIConfig) (newId : String) :
    List AIConfig → List AIConfig
  | [] => store
  | c :: rest =>
      if c.id ≠ newId
      then deactivateOthers (putConfig store { c with isActive := false }) newId rest
      else deactivateOthers store newId rest

/-- `AIAPIClient.saveConfig`: encrypt the API key, build the new record
with `isActive := true` (fresh UUID when the input id is falsy),
deactivate every other snapshot record, then update-or-add the new
record, and refresh the client instance fields. -/
def saveConfig (C : AEADCipher) (km : KMState) (client : AIClientState)
    (store : List AIConfig) (cfg : ConfigInput) (rng : RNG) (now : Nat) :
    Except String (AIConfig × AIClientState × List AIConfig) × RNG :=
  match encryptString C km rng cfg.apiKey with
  | (.error e, rng1) => (.error e, rng1)
  | (.ok (encrypted, iv), rng1) =>
      let idr := if cfg.id = "" then generateUUID rng1 else (cfg.id, rng1)
      let configData : AIConfig :=
        { id := idr.1
          name := jsOr cfg.name "Default Config"
          apiUrl := cfg.apiUrl
          apiKeyEncrypted := encrypted
          apiKeyIv := iv
          model := cfg.model
          defaultPrompt := jsOr cfg.defaultPrompt client.defaultPrompt
          isActive := true
          lastTested := now }
      let store1 := deactivateOthers store configData.id store
      let store2 := putConfig store1 configData
      (.ok (configData,
            { apiUrl := cfg.apiUrl
              apiKey := cfg.apiKey
              model := cfg.model
              defaultPrompt := jsOr cfg.defaultPrompt client.defaultPrompt },
            store2), idr.2)

/-- `IndexedDBManager.getActiveAIConfig`: first record of the `isActive`
index query, or absent. -/
def getActiveAIConfig (store : List AIConfig) : Option AIConfig :=
  (store.filter (fun c => c.isActive)).head?

/-! ### File import (`FileHandler.processFile`, `FileHandler.importFiles`) -/

/-- A raw browser `File`. -/
structure RawFile where
  name : String
  type : String
  size : Nat
  content : Bytes
deriving DecidableEq

/-- The metadata object the media processors return; `duration` is absent
for images. -/
structure Metadata where
  fileName : String
  size : Nat
  width : Nat
  height : Nat
  duration : Option Nat
deriving DecidableEq

/-- The `ImageProcessor`/`VideoProcessor` pair, which the repository
treats as a pluggable media-analysis capability: type tests, metadata
extraction and thumbnail generation, the latter two fallible. -/
structure Analyzer where
  isValidImage : RawFile → Bool
  isValidVideo : RawFile → Bool
  imageMetadata : RawFile → Except String Metadata
  videoMetadata : RawFile → Except String Metadata
  imageThumbnail : RawFile → Except String Bytes
  videoThumbnail : RawFile → Except String Bytes

/-- A `MediaItem` record as persisted in the `mediaItems` store. -/
structure MediaItem where
  id : String
  categoryId : String
  type : String
  fileName : String
  fileSize : Nat
  width : Nat
  height : Nat
  duration : Nat
  thumbnailData : Bytes
  thumbnailIv : Bytes
  fileData : Bytes
  fileIv : Bytes
  mimeType : String
  aiTags : List String
  aiPrompt : String
  aiModel : String
  createdAt : Nat
  deletedOriginal : Bool
deriving DecidableEq

/-- IndexedDB `add` on the `mediaItems` store (keyPath `id`): fails when
the key already exists, otherwise appends. -/
def addMediaItem (store : List MediaItem) (item : MediaItem) :
    Except String (List MediaItem) :=
  if store.any (fun x => x.id = item.id)
  then .error "ConstraintError"
  else .ok (store ++ [item])

/-- `FileHandler.processFile`: classify, extract metadata, generate the
thumbnail, encrypt thumbnail and original independently, build the item
with a fresh UUID and `createdAt = now`, then persist with a single
`addMediaItem`. Any failure returns the store unchanged. -/
def processFile (C : AEADCipher) (km : KMState) (an : Analyzer)
    (store : List MediaItem) (file : RawFile) (categoryId : String)
    (rng : RNG) (now : Nat) :
    Except String MediaItem × List MediaItem × RNG :=
  let isImage := an.isValidImage file
  let isVideo := an.isValidVideo file
  if ¬isImage ∧ ¬isVideo then (.error "Unsupported file type", store, rng)
  else
    match (if isImage then an.imageMetadata file else an.videoMetadata file) with
    | .error e => (.error e, store, rng)
    | .ok metadata =>
        match (if isImage then an.imageThumbnail file
               else an.videoThumbnail file) with
        | .error e => (.error e, store, rng)
        | .ok thumbBlob =>
            match encryptFile C km rng thumbBlob with
            | (.error e, rng1) => (.error e, store, rng1)
            | (.ok encThumb, rng1) =>
                match encryptFile C km rng1 file.content with
                | (.error e, rng2) => (.error e, store, rng2)
                | (.ok encFile, rng2) =>
                    let idr := generateUUID rng2
                    let mediaItem : MediaItem :=
                      { id := idr.1
                        categoryId := categoryId
                        type := if isImage then "image" else "video"
                        fileName := metadata.fileName
                        fileSize := metadata.size
                        width := metadata.width
                        height := metadata.height
                        duration := metadata.duration.getD 0
                        thumbnailData := encThumb.1
                        thumbnailIv := encThumb.2
                        fileData := encFile.1
                        fileIv := encFile.2
                        mimeType := file.type
                        aiTags := []
                        aiPrompt := ""
                        aiModel := ""
                        createdAt := now
                        deletedOriginal := false }
                    match addMediaItem store mediaItem with
                    | .error e => (.error e, store, idr.2)
                    | .ok store1 => (.ok mediaItem, store1, idr.2)

/-- One entry of `importFiles`' result list. -/
structure ImportResult where
  success : Bool
  item : Option MediaItem
  error : Option String
  fileName : String
deriving DecidableEq

/-- `FileHandler.importFiles`: sequentially process each file, collecting
one `{success, item|error, fileName}` result per file; a failure is
caught and recorded, never aborting the loop. -/
def importFiles (C : AEADCipher) (km : KMState) (an : Analyzer)
    (store : List MediaItem) (files : List RawFile) (categoryId : String)
    (rng : RNG) (now : Nat) :
    List ImportResult × List MediaItem × RNG :=
  match files with
  | [] => ([], store, rng)
  | file :: rest =>
      let r := processFile C km an store file categoryId rng now
      let entry : ImportResult :=
        match r.1 with
        | .ok item =>
            { success := true, item := some item, error := none,
              fileName := file.name }
        | .error e =>
            { success := false, item := none, error := some e,
              fileName := file.name }
      let tail := importFiles C km an r.2.1 rest categoryId r.2.2 now
      (entry :: tail.1, tail.2.1, tail.2.2)

/-! ### Category deletion (`CategoryManager.deleteCategory`) -/

/-- A `Category` record. -/
structure Category where
  id : String
  name : String
  description : String
  color : String
  createdAt : Nat
deriving DecidableEq

/-- IndexedDB `put` on the `mediaItems` store. -/
def putMediaItem (l : List MediaItem) (x : MediaItem) : List MediaItem :=
  if l.any (fun y => y.id = x.id)
  then l.map (fun y => if y.id = x.id then x else y)
  else l ++ [x]

/-- The reassignment loop of `deleteCategory`: each matched item is
updated with `categoryId := "uncategorized"` and put back. -/
def reassignLoop (store : List MediaItem) : List MediaItem → List MediaItem
  | [] => store
  | it :: rest =>
      reassignLoop (putMediaItem store { it with categoryId := "uncategorized" })
        rest

/-- `CategoryManager.deleteCategory` (the confirmed path): query the
`categoryId` index, reassign every matched item to `"uncategorized"`,
then delete the category record. Cancelling the confirm dialog leaves
everything unchanged. -/
def deleteCategory (cats : List Category) (items : List MediaItem)
    (categoryId : String) (confirmed : Bool) :
    List Category × List MediaItem :=
  if ¬confirmed then (cats, items)
  else
    let matched := items.filter (fun it => it.categoryId = categoryId)
    let items1 := reassignLoop items matched
    (cats.filter (fun c => c.id ≠ categoryId), items1)

/-! ### Concrete instances used by the witnesses -/

/-- A concrete authenticated cipher satisfying the `AEADCipher`
interface: the ciphertext is the IV, the key and the plaintext, so
decryption can check both. -/
def listC : AEADCipher where
  enc := fun k iv m => iv ++ k :: m
  dec := fun k iv c =>
    if c.take iv.length = iv then
      match c.drop iv.length with
      | [] => none
      | k' :: m => if k' = k then some m else none
    else none
  dec_enc := by
    intro k iv m
    simp [List.take_left, List.drop_left]
  enc_iv_inj := by
    intro k iv1 iv2 m h
    have hlen : iv1.length = iv2.length := by
      have := congrArg List.length h
      simp at this
      omega
    exact (List.append_inj h hlen).1

/-- A concrete key-derivation function. -/
def hashKdf : KDF := fun hsh s it p l => hsh.length + s.sum + it + p.length + l

/-- A concrete random stream. -/
def idRng : RNG := fun i => i

/-- An unlocked `KeyManager` state. -/
def kmUnlocked : KMState :=
  { masterKey := some 7, salt := some [1], storedSalt := some [1],
    passwordTest := none }

/-- A locked, uninitialised `KeyManager` state. -/
def kmFresh : KMState :=
  { masterKey := none, salt := none, storedSalt := none, passwordTest := none }

/-- An initialised state with a persisted salt and verifier, as it stands
before a second `setupPassword` call. -/
def kmInitialised : KMState :=
  { masterKey := none, salt := none, storedSalt := some [1, 2],
    passwordTest := some ([9], [8]) }

/-- A concrete active AI config. -/
def cfgA : AIConfig :=
  { id := "a", name := "A", apiUrl := "u", apiKeyEncrypted := [],
    apiKeyIv := [], model := "m", defaultPrompt := "d", isActive := true,
    lastTested := 0 }

/-- A concrete config input activating a different id. -/
def cfgB : ConfigInput :=
  { id := "b", name := "B", apiUrl := "u", apiKey := "k", model := "m",
    defaultPrompt := "d" }

/-- A concrete AI client instance state. -/
def clientA : AIClientState :=
  { apiUrl := "", apiKey := "", model := "gpt-4o", defaultPrompt := "d0" }

/-- A concrete media item with the given id and category. -/
def mkItem (id cat : String) : MediaItem :=
  { id := id, categoryId := cat, type := "image", fileName := "f",
    fileSize := 0, width := 0, height := 0, duration := 0,
    thumbnailData := [], thumbnailIv := [], fileData := [], fileIv := [],
    mimeType := "", aiTags := [], aiPrompt := "", aiModel := "",
    createdAt := 0, deletedOriginal := false }

/-- A concrete category record. -/
def catC1 : Category :=
  { id := "c1", name := "Cats", description := "", color := "",
    createdAt := 0 }

/-- A concrete analyzer: files whose MIME type is `"image/png"` are
images, `"video/mp4"` are videos, everything else is unsupported;
metadata and thumbnails always succeed. -/
def anPng : Analyzer :=
  { isValidImage := fun f => f.type = "image/png"
    isValidVideo := fun f => f.type = "video/mp4"
    imageMetadata := fun f => .ok
      { fileName := f.name, size := f.size, width := 2, height := 2,
        duration := none }
    videoMetadata := fun f => .ok
      { fileName := f.name, size := f.size, width := 2, height := 2,
        duration := some 9 }
    imageThumbnail := fun _ => .ok [5, 5]
    videoThumbnail := fun _ => .ok [6, 6] }

/-- Three concrete raw files; the second has an unsupported type. -/
def fileOk1 : RawFile :=
  { name := "a.png", type := "image/png", size := 3, content := [1, 2, 3] }

/-- See `fileOk1`. -/
def fileBad : RawFile :=
  { name := "b.txt", type := "text/plain", size := 1, content := [9] }

/-- See `fileOk1`. -/
def fileOk2 : RawFile :=
  { name := "c.png", type := "image/png", size := 2, content := [4, 5] }

/-! ### C5: key derivation parameters and determinism -/

/-- The key `deriveKey` computes when the salt `s` is available, either
already loaded in memory or persisted. -/
theorem deriveKey_key (kdf : KDF) (st : KMState) (rng : RNG) (p : String)
    (s : Bytes)
    (h : st.salt = some s ∨ (st.salt = none ∧ st.storedSalt = some s)) :
    (deriveKey kdf st rng p).1 = kdf "SHA-256" s 100000 p 256 := by
  rcases h with h | ⟨h1, h2⟩
  · simp [deriveKey, h]
  · simp [deriveKey, initSalt, h1, h2]

/-- C5: for every password `P` and fixed persisted salt, `deriveKey`
computes PBKDF2-HMAC-SHA256 over `P` with that salt, exactly 100,000
iterations and 256-bit output, and is deterministic: any two calls with
the same password and the same salt yield identical keys. -/
theorem deriveKey_pbkdf2_deterministic (kdf : KDF) (st : KMState)
    (rng : RNG) (p : String) (s : Bytes)
    (h : st.salt = some s ∨ (st.salt = none ∧ st.storedSalt = some s)) :
    (deriveKey kdf st rng p).1 = kdf "SHA-256" s 100000 p 256 ∧
    ∀ (st2 : KMState) (rng2 : RNG),
      (st2.salt = some s ∨ (st2.salt = none ∧ st2.storedSalt = some s)) →
      (deriveKey kdf st2 rng2 p).1 = (deriveKey kdf st rng p).1 := by
  refine ⟨deriveKey_key kdf st rng p s h, ?_⟩
  intro st2 rng2 h2
  rw [deriveKey_key kdf st rng p s h, deriveKey_key kdf st2 rng2 p s h2]

/-- Witness for C5 at a concrete state and password. -/
theorem deriveKey_pbkdf2_deterministic_witness :
    (deriveKey hashKdf kmUnlocked idRng "pw").1
        = hashKdf "SHA-256" [1] 100000 "pw" 256 ∧
    ∀ (st2 : KMState) (rng2 : RNG),
      (st2.salt = some [1] ∨ (st2.salt = none ∧ st2.storedSalt = some [1])) →
      (deriveKey hashKdf st2 rng2 "pw").1
          = (deriveKey hashKdf kmUnlocked idRng "pw").1 :=
  deriveKey_pbkdf2_deterministic hashKdf kmUnlocked idRng "pw" [1]
    (Or.inl rfl)

/-! ### C10: `verifyPassword` overwrites the held master key -/

/-- `deriveKey` stores the key it returns as the master key. -/
theorem deriveKey_masterKey (kdf : KDF) (st : KMState) (rng : RNG)
    (p : String) :
    (deriveKey kdf st rng p).2.1.masterKey = some (deriveKey kdf st rng p).1 :=
  rfl

/-- The state `verifyPassword` returns when a verifier exists is the
state `deriveKey` produced, whatever the decryption outcome. -/
theorem verifyPassword_state (C : AEADCipher) (kdf : KDF) (st : KMState)
    (rng : RNG) (p : String) (ct iv : Bytes)
    (h : st.passwordTest = some (ct, iv)) :
    (verifyPassword C kdf st rng p).2.1 = (deriveKey kdf st rng p).2.1 := by
  simp only [verifyPassword, h]
  rcases hd : C.dec (deriveKey kdf st rng p).1 iv ct with _ | pt <;> simp [hd]

/-- C10: when a verifier record exists, `verifyPassword P` unconditionally
overwrites the held master key with the key derived from `P`, so the
`KeyManager` ends up unlocked — `isUnlocked` is true and `getMasterKey`
returns the `P`-derived key — even when the password was wrong and the
call returned false. -/
theorem verifyPassword_overwrites_key (C : AEADCipher) (kdf : KDF)
    (st : KMState) (rng : RNG) (p : String) (ct iv : Bytes)
    (h : st.passwordTest = some (ct, iv)) :
    (verifyPassword C kdf st rng p).2.1.masterKey
        = some (deriveKey kdf st rng p).1 ∧
    isUnlocked (verifyPassword C kdf st rng p).2.1 = true ∧
    getMasterKey (verifyPassword C kdf st rng p).2.1
        = .ok (deriveKey kdf st rng p).1 := by
  have hs := verifyPassword_state C kdf st rng p ct iv h
  refine ⟨?_, ?_, ?_⟩ <;>
    simp [hs, deriveKey_masterKey, isUnlocked, getMasterKey]

/-- Witness for C10: a wrong password still unlocks the manager. -/
theorem verifyPassword_overwrites_key_witness :
    (verifyPassword listC hashKdf kmInitialised idRng "wrong").2.1.masterKey
        = some (deriveKey hashKdf kmInitialised idRng "wrong").1 ∧
    isUnlocked (verifyPassword listC hashKdf kmInitialised idRng "wrong").2.1
        = true ∧
    getMasterKey (verifyPassword listC hashKdf kmInitialised idRng "wrong").2.1
        = .ok (deriveKey hashKdf kmInitialised idRng "wrong").1 :=
  verifyPassword_overwrites_key listC hashKdf kmInitialised idRng "wrong"
    [9] [8] rfl

/-! ### C2: password verification -/

/-- `initSalt` always produces a loaded salt that matches the persisted
one. -/
theorem initSalt_salt (st : KMState) (rng : RNG) :
    ∃ s, (initSalt st rng).1.salt = some s ∧
         (initSalt st rng).1.storedSalt = some s := by
  rcases h : st.storedSalt with _ | s
  · exact ⟨drawBytes 16 rng, by simp [initSalt, h]⟩
  · exact ⟨s, by simp [initSalt, h]⟩

/-- The boolean `verifyPassword` returns when a verifier exists, as a
function of the candidate-key decryption. -/
theorem verifyPassword_result (C : AEADCipher) (kdf : KDF) (st : KMState)
    (rng : RNG) (p : String) (ct iv : Bytes)
    (h : st.passwordTest = some (ct, iv)) :
    (verifyPassword C kdf st rng p).1 =
      match C.dec (deriveKey kdf st rng p).1 iv ct with
      | some pt => decodeText pt == "PASSWORD_CORRECT"
      | none => false := by
  simp only [verifyPassword, h]
  rcases hd : C.dec (deriveKey kdf st rng p).1 iv ct with _ | pt <;> simp [hd]

/-- The salt and verifier of the state `setupPassword` leaves behind. -/
theorem setupPassword_state (C : AEADCipher) (kdf : KDF) (st : KMState)
    (rng : RNG) (p : String) (s : Bytes)
    (hs : (initSalt st rng).1.salt = some s) :
    (setupPassword C kdf st rng p).2.1.salt = some s ∧
    (setupPassword C kdf st rng p).2.1.passwordTest =
      some (C.enc (kdf "SHA-256" s 100000 p 256)
              (drawBytes 12 (initSalt st rng).2)
              (encodeText "PASSWORD_CORRECT"),
            drawBytes 12 (initSalt st rng).2) := by
  constructor <;> simp [setupPassword, deriveKey, hs]

/-- C2: with no verifier record `verifyPassword` returns true (first
run); with a verifier it returns true exactly when decrypting the stored
ciphertext under the candidate key succeeds with the exact plaintext
`"PASSWORD_CORRECT"`; a decryption failure yields false (the embedding is
total — no error escapes); and the password used at setup does verify. -/
theorem verifyPassword_spec (C : AEADCipher) (kdf : KDF) (st : KMState)
    (rng : RNG) (p : String) :
    (st.passwordTest = none → (verifyPassword C kdf st rng p).1 = true) ∧
    (∀ ct iv, st.passwordTest = some (ct, iv) →
      ((verifyPassword C kdf st rng p).1 = true ↔
        ∃ pt, C.dec (deriveKey kdf st rng p).1 iv ct = some pt ∧
              decodeText pt = "PASSWORD_CORRECT")) ∧
    (∀ ct iv, st.passwordTest = some (ct, iv) →
      C.dec (deriveKey kdf st rng p).1 iv ct = none →
      (verifyPassword C kdf st rng p).1 = false) ∧
    (∀ st0 rng0,
      (verifyPassword C kdf (setupPassword C kdf st0 rng0 p).2.1
         (setupPassword C kdf st0 rng0 p).2.2 p).1 = true) := by
  refine ⟨?_, ?_, ?_, ?_⟩
  · intro h; simp [verifyPassword, h]
  · intro ct iv h
    rw [verifyPassword_result C kdf st rng p ct iv h]
    rcases hd : C.dec (deriveKey kdf st rng p).1 iv ct with _ | pt <;> simp [hd]
  · intro ct iv h hd
    rw [verifyPassword_result C kdf st rng p ct iv h, hd]
  · intro st0 rng0
    obtain ⟨s, hs, _⟩ := initSalt_salt st0 rng0
    obtain ⟨h1, h2⟩ := setupPassword_state C kdf st0 rng0 p s hs
    rw [verifyPassword_result C kdf _ _ p _ _ h2,
        deriveKey_key kdf _ _ p s (Or.inl h1), C.dec_enc]
    decide

/-- Witness for C2: after a concrete setup, the same password verifies. -/
theorem verifyPassword_spec_witness :
    (verifyPassword listC hashKdf
       (setupPassword listC hashKdf kmFresh idRng "pw").2.1
       (setupPassword listC hashKdf kmFresh idRng "pw").2.2 "pw").1 = true :=
  (verifyPassword_spec listC hashKdf kmFresh idRng "pw").2.2.2 kmFresh idRng

/-! ### C1: encryption round-trip with fresh IVs -/

/-- `encryptFile` on an unlocked manager: ciphertext under the freshly
drawn 12-byte IV, stream advanced past it. -/
theorem encryptFile_eq (C : AEADCipher) (km : KMState) (rng : RNG)
    (m : Bytes) (key : Nat) (h : km.masterKey = some key) :
    encryptFile C km rng m =
      (.ok (C.enc key (drawBytes 12 rng) m, drawBytes 12 rng),
       advance 12 rng) := by
  simp [encryptFile, getMasterKey, h]

/-- C1: encrypting while unlocked and decrypting the resulting
(ciphertext, iv) pair under the same key returns the plaintext; each call
generates its own fresh 12-byte IV from the random stream (the signature
admits no caller-supplied IV), so two encryptions of the same plaintext
whose random draws differ yield different ciphertexts, both of which
decrypt back to the plaintext. -/
theorem encryptFile_decryptFile_roundtrip (C : AEADCipher) (km : KMState)
    (rng : RNG) (m : Bytes) (key : Nat) (h : km.masterKey = some key) :
    ∃ ct1 ct2,
      (encryptFile C km rng m).1 = .ok (ct1, drawBytes 12 rng) ∧
      (encryptFile C km (encryptFile C km rng m).2 m).1
        = .ok (ct2, drawBytes 12 (advance 12 rng)) ∧
      decryptFile C km ct1 (drawBytes 12 rng) = .ok m ∧
      decryptFile C km ct2 (drawBytes 12 (advance 12 rng)) = .ok m ∧
      (drawBytes 12 rng ≠ drawBytes 12 (advance 12 rng) → ct1 ≠ ct2) := by
  refine ⟨C.enc key (drawBytes 12 rng) m,
          C.enc key (drawBytes 12 (advance 12 rng)) m, ?_, ?_, ?_, ?_, ?_⟩
  · rw [encryptFile_eq C km rng m key h]
  · rw [encryptFile_eq C km rng m key h,
        encryptFile_eq C km (advance 12 rng) m key h]
  · simp [decryptFile, getMasterKey, h, C.dec_enc]
  · simp [decryptFile, getMasterKey, h, C.dec_enc]
  · intro hiv hct
    exact hiv (C.enc_iv_inj key (drawBytes 12 rng)
      (drawBytes 12 (advance 12 rng)) m hct)

/-- Witness for C1 at a concrete cipher, key and plaintext. -/
theorem encryptFile_decryptFile_roundtrip_witness :
    ∃ ct1 ct2,
      (encryptFile listC kmUnlocked idRng [1, 2, 3]).1
        = .ok (ct1, drawBytes 12 idRng) ∧
      (encryptFile listC kmUnlocked
         (encryptFile listC kmUnlocked idRng [1, 2, 3]).2 [1, 2, 3]).1
        = .ok (ct2, drawBytes 12 (advance 12 idRng)) ∧
      decryptFile listC kmUnlocked ct1 (drawBytes 12 idRng) = .ok [1, 2, 3] ∧
      decryptFile listC kmUnlocked ct2 (drawBytes 12 (advance 12 idRng))
        = .ok [1, 2, 3] ∧
      (drawBytes 12 idRng ≠ drawBytes 12 (advance 12 idRng) → ct1 ≠ ct2) :=
  encryptFile_decryptFile_roundtrip listC kmUnlocked idRng [1, 2, 3] 7 rfl

/-! ### C4: second `setupPassword` is not guarded -/

/-- C4 counterexample: with a salt already persisted (`isPasswordSet`
true), `setupPassword` does not fail with any error — it returns success
— and it overwrites the stored `PasswordVerifier`. -/
theorem setupPassword_not_guarded :
    isPasswordSet kmInitialised = true ∧
    (setupPassword listC hashKdf kmInitialised idRng "newpw").1 = true ∧
    (setupPassword listC hashKdf kmInitialised idRng "newpw").2.1.passwordTest
      ≠ kmInitialised.passwordTest := by
  refine ⟨rfl, rfl, ?_⟩
  decide

/-- C4 amended: when a salt is already persisted, `setupPassword P` does
not regenerate it — the salt is reused unchanged — but it does not fail
either: it succeeds and overwrites the stored `PasswordVerifier` with a
fresh one encrypted under the key derived from `P` and a fresh IV. -/
theorem setupPassword_reuses_salt_overwrites_verifier (C : AEADCipher)
    (kdf : KDF) (st : KMState) (rng : RNG) (p : String) (s : Bytes)
    (h : st.storedSalt = some s) :
    (setupPassword C kdf st rng p).1 = true ∧
    (setupPassword C kdf st rng p).2.1.storedSalt = some s ∧
    (setupPassword C kdf st rng p).2.1.passwordTest =
      some (C.enc (kdf "SHA-256" s 100000 p 256) (drawBytes 12 rng)
              (encodeText "PASSWORD_CORRECT"),
            drawBytes 12 rng) := by
  refine ⟨rfl, ?_, ?_⟩ <;> simp [setupPassword, deriveKey, initSalt, h]

/-- Witness for the amended C4 at a concrete initialised state. -/
theorem setupPassword_reuses_salt_overwrites_verifier_witness :
    (setupPassword listC hashKdf kmInitialised idRng "pw").1 = true ∧
    (setupPassword listC hashKdf kmInitialised idRng "pw").2.1.storedSalt
      = some [1, 2] ∧
    (setupPassword listC hashKdf kmInitialised idRng "pw").2.1.passwordTest =
      some (listC.enc (hashKdf "SHA-256" [1, 2] 100000 "pw" 256)
              (drawBytes 12 idRng) (encodeText "PASSWORD_CORRECT"),
            drawBytes 12 idRng) :=
  setupPassword_reuses_salt_overwrites_verifier listC hashKdf kmInitialised
    idRng "pw" [1, 2] rfl

/-! ### C3: tag extraction matches the spec's rule -/

/-- The push-into-accumulator loop of `extractTags` is the filtered map
of the cleanup over the fragments. -/
theorem extractTags_foldl (frags : List (List Char)) (acc : List String) :
    frags.foldl (fun acc line =>
      let cleaned := cleanFragment line
      if 2 < cleaned.length ∧ cleaned.length < 100
      then acc ++ [⟨cleaned⟩] else acc) acc
    = acc ++ (((frags.map cleanFragment).filter
        (fun t => 2 < t.length ∧ t.length < 100)).map
        (fun l => (⟨l⟩ : String))) := by
  induction frags generalizing acc with
  | nil => simp
  | cons f rest ih =>
      simp only [List.foldl_cons, List.map_cons, List.filter_cons]
      by_cases hc : 2 < (cleanFragment f).length ∧ (cleanFragment f).length < 100
      · rw [ih]; simp [hc]
      · rw [ih]; simp [hc]

/-- C3: `extractTags` splits on commas, semicolons and newlines, cleans
each fragment (trim, strip a leading bullet or numbered-list marker,
truncate to 50 characters), keeps exactly the fragments whose length is
strictly between 2 and 100, caps the result at the first 10 in original
order — i.e. it equals the spec's declarative rule — and on
`"cat, a dog, - bird, 1. fish, x"` it yields exactly
`["cat", "a dog", "bird", "fish"]`. -/
theorem extractTags_spec :
    (∀ r, extractTags r = extractTagsRule r) ∧
    extractTags "cat, a dog, - bird, 1. fish, x"
      = ["cat", "a dog", "bird", "fish"] := by
  constructor
  · intro r
    unfold extractTags extractTagsRule
    rw [extractTags_foldl]
    simp
  · decide

/-! ### C9: deleting a category reassigns its items -/

/-- The reassignment loop, run over a sublist of a store with unique
ids, equals a pointwise update of the store. -/
theorem reassignLoop_eq (ms : List MediaItem) :
    ∀ store : List MediaItem,
    (store.map MediaItem.id).Nodup →
    (∀ m ∈ ms, m ∈ store) →
    (ms.map MediaItem.id).Nodup →
    reassignLoop store ms
      = store.map (fun y => if y.id ∈ ms.map MediaItem.id
          then { y with categoryId := "uncategorized" } else y) := by
  induction ms with
  | nil =>
      intro store _ _ _
      simp [reassignLoop]
  | cons m rest ih =>
      intro store hnd hsub hmnd
      have hm : m ∈ store := hsub m (List.mem_cons_self m rest)
      have hinj := List.inj_on_of_nodup_map hnd
      have hany : store.any (fun y => y.id = m.id) = true :=
        List.any_eq_true.mpr ⟨m, hm, by simp⟩
      have hmid : m.id ∉ rest.map MediaItem.id := by
        have := hmnd
        simp only [List.map_cons, List.nodup_cons] at this
        exact this.1
      have hput : putMediaItem store { m with categoryId := "uncategorized" }
          = store.map (fun y => if y.id = m.id
              then { y with categoryId := "uncategorized" } else y) := by
        simp only [putMediaItem, hany, if_true]
        refine List.map_congr_left ?_
        intro y hy
        by_cases h : y.id = m.id
        · have hym : y = m := hinj hy hm h
          subst hym
          simp [h]
        · simp [h]
      have hids : (store.map (fun y => if y.id = m.id
            then { y with categoryId := "uncategorized" } else y)).map
            MediaItem.id = store.map MediaItem.id := by
        rw [List.map_map]
        refine List.map_congr_left ?_
        intro y _
        by_cases h : y.id = m.id <;> simp [Function.comp, h]
      rw [reassignLoop, hput]
      rw [ih _ (by rw [hids]; exact hnd) ?sub (by
        simp only [List.map_cons, List.nodup_cons] at hmnd
        exact hmnd.2)]
      case sub =>
        intro r hr
        have hrs : r ∈ store := hsub r (List.mem_cons_of_mem m hr)
        have hrid : r.id ≠ m.id := by
          intro he
          exact hmid (he ▸ List.mem_map.mpr ⟨r, hr, rfl⟩)
        refine List.mem_map.mpr ⟨r, hrs, ?_⟩
        simp [hrid]
      rw [List.map_map]
      refine List.map_congr_left ?_
      intro y hy
      by_cases h : y.id = m.id
      · have hym : y = m := hinj hy hm h
        simp only [Function.comp, h, if_true, List.map_cons, List.mem_cons]
        have : m.id ∈ rest.map MediaItem.id → False := hmid
        simp [hym ▸ hmid, h]
      · by_cases h2 : y.id ∈ rest.map MediaItem.id <;>
          simp [Function.comp, h, h2]

/-- C9: deleting a category (confirmed path) rewrites exactly its items'
`categoryId` to the sentinel `"uncategorized"` — every item survives with
every other field unchanged, so the item count is preserved — and then
removes the category record itself. -/
theorem deleteCategory_reassigns (cats : List Category)
    (items : List MediaItem) (cid : String)
    (hnd : (items.map MediaItem.id).Nodup) :
    (deleteCategory cats items cid true).2
      = items.map (fun it => if it.categoryId = cid
          then { it with categoryId := "uncategorized" } else it) ∧
    (deleteCategory cats items cid true).2.length = items.length ∧
    (deleteCategory cats items cid true).1
      = cats.filter (fun c => c.id ≠ cid) := by
  have hmain : (deleteCategory cats items cid true).2
      = items.map (fun it => if it.categoryId = cid
          then { it with categoryId := "uncategorized" } else it) := by
    have hinj := List.inj_on_of_nodup_map hnd
    simp only [deleteCategory, if_neg (by decide : ¬¬(true = true))]
    rw [reassignLoop_eq _ items hnd
      (fun m hm => List.mem_of_mem_filter hm)
      (List.Nodup.sublist ((List.filter_sublist items).map MediaItem.id) hnd)]
    refine List.map_congr_left ?_
    intro y hy
    by_cases h : y.categoryId = cid
    · have : y.id ∈ (items.filter
          (fun it => it.categoryId = cid)).map MediaItem.id :=
        List.mem_map.mpr ⟨y, List.mem_filter.mpr ⟨hy, by simp [h]⟩, rfl⟩
      simp [this, h]
    · have : y.id ∉ (items.filter
          (fun it => it.categoryId = cid)).map MediaItem.id := by
        intro hmem
        obtain ⟨z, hz, hzid⟩ := List.mem_map.mp hmem
        have hzi : z ∈ items := List.mem_of_mem_filter hz
        have : z = y := hinj hzi hy hzid
        subst this
        exact h (by simpa using (List.mem_filter.mp hz).2)
      simp [this, h]
  refine ⟨hmain, ?_, by simp [deleteCategory]⟩
  rw [hmain, List.length_map]

/-! ### C6: at most one active AI config after a save -/

/-- The deactivation loop, run over a sublist of a store with unique
ids, turns off every record whose id is in the sublist and differs from
the new id. -/
theorem deactivateOthers_eq (ms : List AIConfig) (newId : String) :
    ∀ store : List AIConfig,
    (store.map AIConfig.id).Nodup →
    (∀ m ∈ ms, m ∈ store) →
    (ms.map AIConfig.id).Nodup →
    deactivateOthers store newId ms
      = store.map (fun y =>
          if y.id ∈ ms.map AIConfig.id ∧ y.id ≠ newId
          then { y with isActive := false } else y) := by
  induction ms with
  | nil =>
      intro store _ _ _
      simp [deactivateOthers]
  | cons m rest ih =>
      intro store hnd hsub hmnd
      have hm : m ∈ store := hsub m (List.mem_cons_self m rest)
      have hinj := List.inj_on_of_nodup_map hnd
      have hmid : m.id ∉ rest.map AIConfig.id := by
        simp only [List.map_cons, List.nodup_cons] at hmnd
        exact hmnd.1
      have hrnd : (rest.map AIConfig.id).Nodup := by
        simp only [List.map_cons, List.nodup_cons] at hmnd
        exact hmnd.2
      by_cases hmn : m.id ≠ newId
      · have hany : store.any (fun y => y.id = m.id) = true :=
          List.any_eq_true.mpr ⟨m, hm, by simp⟩
        have hput : putConfig store { m with isActive := false }
            = store.map (fun y => if y.id = m.id
                then { y with isActive := false } else y) := by
          simp only [putConfig, hany, if_true]
          refine List.map_congr_left ?_
          intro y hy
          by_cases h : y.id = m.id
          · have hym : y = m := hinj hy hm h
            subst hym
            simp [h]
          · simp [h]
        have hids : (store.map (fun y => if y.id = m.id
              then { y with isActive := false } else y)).map
              AIConfig.id = store.map AIConfig.id := by
          rw [List.map_map]
          refine List.map_congr_left ?_
          intro y _
          by_cases h : y.id = m.id <;> simp [Function.comp, h]
        rw [deactivateOthers, if_pos hmn, hput]
        rw [ih _ (by rw [hids]; exact hnd) ?sub hrnd]
        case sub =>
          intro r hr
          have hrs : r ∈ store := hsub r (List.mem_cons_of_mem m hr)
          have hrid : r.id ≠ m.id := by
            intro he
            exact hmid (he ▸ List.mem_map.mpr ⟨r, hr, rfl⟩)
          refine List.mem_map.mpr ⟨r, hrs, ?_⟩
          simp [hrid]
        rw [List.map_map]
        refine List.map_congr_left ?_
        intro y hy
        by_cases h : y.id = m.id
        · have h1 : y.id ∉ rest.map AIConfig.id := by rw [h]; exact hmid
          have h2 : ¬y.id = newId := by rw [h]; exact hmn
          simp only [Function.comp_apply, if_pos h, List.map_cons,
            List.mem_cons]
          simp [h, h1, h2, hmn]
        · simp only [Function.comp_apply, if_neg h, List.map_cons,
            List.mem_cons]
          by_cases h2 : y.id ∈ rest.map AIConfig.id <;>
            by_cases h3 : y.id = newId <;> simp [h, h2, h3]
      · push_neg at hmn
        rw [deactivateOthers, if_neg (by simp [hmn])]
        rw [ih _ hnd (fun r hr => hsub r (List.mem_cons_of_mem m hr)) hrnd]
        refine List.map_congr_left ?_
        intro y _
        simp only [List.map_cons, List.mem_cons]
        by_cases h : y.id = m.id
        · have h3 : y.id = newId := by rw [h, hmn]
          simp [h3]
        · by_cases h2 : y.id ∈ rest.map AIConfig.id <;>
            by_cases h3 : y.id = newId <;> simp [h, h2, h3]

/-- Replacing the record keyed `x.id` in an all-deactivated store with
unique ids leaves `[x]` as the only active records. -/
theorem filter_active_replace (x : AIConfig) (hx : x.isActive = true) :
    ∀ l : List AIConfig,
    (∀ c ∈ l, c.id ≠ x.id → c.isActive = false) →
    (l.map AIConfig.id).Nodup →
    (l.map (fun y => if y.id = x.id then x else y)).filter
        (fun c => c.isActive)
      = if x.id ∈ l.map AIConfig.id then [x] else [] := by
  intro l
  induction l with
  | nil => simp
  | cons c rest ih =>
      intro hin hnd
      have hcid : c.id ∉ rest.map AIConfig.id := by
        simp only [List.map_cons, List.nodup_cons] at hnd
        exact hnd.1
      have hrnd : (rest.map AIConfig.id).Nodup := by
        simp only [List.map_cons, List.nodup_cons] at hnd
        exact hnd.2
      have hrest := ih (fun d hd => hin d (List.mem_cons_of_mem c hd)) hrnd
      by_cases h : c.id = x.id
      · have hx2 : x.id ∉ rest.map AIConfig.id := by
          rw [← h]; exact hcid
        rw [List.map_cons, if_pos h,
          List.filter_cons_of_pos (by simp [hx]), hrest, if_neg hx2,
          if_pos (by simp [← h])]
      · have hc : c.isActive = false := hin c (List.mem_cons_self c rest) h
        rw [List.map_cons, if_neg h,
          List.filter_cons_of_neg (by simp [hc]), hrest]
        by_cases h2 : x.id ∈ rest.map AIConfig.id
        · rw [if_pos h2, if_pos (by simp [List.map_cons, List.mem_cons, h2])]
        · rw [if_neg h2, if_neg (by
            simp only [List.map_cons, List.mem_cons]
            push_neg
            exact ⟨fun he => h he.symm, h2⟩)]

/-- `putConfig` of an active record into an all-deactivated store with
unique ids leaves exactly that record active. -/
theorem putConfig_filter_active (x : AIConfig) (hx : x.isActive = true)
    (l : List AIConfig)
    (hin : ∀ c ∈ l, c.id ≠ x.id → c.isActive = false)
    (hnd : (l.map AIConfig.id).Nodup) :
    (putConfig l x).filter (fun c => c.isActive) = [x] := by
  by_cases hany : l.any (fun c => c.id = x.id) = true
  · obtain ⟨c0, hc0, hc0id⟩ := List.any_eq_true.mp hany
    have hmem : x.id ∈ l.map AIConfig.id :=
      List.mem_map.mpr ⟨c0, hc0, by simpa using hc0id⟩
    rw [putConfig, if_pos hany, filter_active_replace x hx l hin hnd,
      if_pos hmem]
  · have hnone : ∀ c ∈ l, ¬c.id = x.id := by
      intro c hc he
      exact hany (List.any_eq_true.mpr ⟨c, hc, by simp [he]⟩)
    rw [putConfig, if_neg hany, List.filter_append]
    have hli : l.filter (fun c => c.isActive) = [] :=
      List.filter_eq_nil_iff.mpr (fun c hc => by
        simp [hin c hc (hnone c hc)])
    simp [hli, hx]

/-- The store after `saveConfig`'s deactivate-then-put sequence has
exactly the new record active. -/
theorem store_after_save (x : AIConfig) (hx : x.isActive = true)
    (store : List AIConfig) (hnd : (store.map AIConfig.id).Nodup) :
    ((putConfig (deactivateOthers store x.id store) x).filter
        (fun c => c.isActive)).length = 1 ∧
    (∀ c ∈ putConfig (deactivateOthers store x.id store) x,
        c.isActive = true → c.id = x.id) ∧
    getActiveAIConfig (putConfig (deactivateOthers store x.id store) x)
      = some x := by
  have hde := deactivateOthers_eq store x.id store hnd (fun m hm => hm) hnd
  have hD : ∀ c ∈ deactivateOthers store x.id store,
      c.id ≠ x.id → c.isActive = false := by
    rw [hde]
    intro c hc hcid
    obtain ⟨y, hy, hyc⟩ := List.mem_map.mp hc
    by_cases h : y.id ∈ store.map AIConfig.id ∧ y.id ≠ x.id
    · rw [if_pos h] at hyc
      rw [← hyc]
    · rw [if_neg h] at hyc
      subst hyc
      push_neg at h
      exact absurd (h (List.mem_map.mpr ⟨y, hy, rfl⟩)) hcid
  have hids1 : (deactivateOthers store x.id store).map AIConfig.id
      = store.map AIConfig.id := by
    rw [hde, List.map_map]
    refine List.map_congr_left ?_
    intro y _
    simp only [Function.comp_apply]
    split_ifs <;> rfl
  have hnd1 : ((deactivateOthers store x.id store).map AIConfig.id).Nodup := by
    rw [hids1]
    exact hnd
  have hfil := putConfig_filter_active x hx _ hD hnd1
  refine ⟨by rw [hfil]; rfl, ?_, by simp [getActiveAIConfig, hfil]⟩
  intro c hc ha
  have hcf : c ∈ (putConfig (deactivateOthers store x.id store) x).filter
      (fun c => c.isActive) := List.mem_filter.mpr ⟨hc, by simp [ha]⟩
  rw [hfil] at hcf
  simp only [List.mem_singleton] at hcf
  rw [hcf]

/-- `saveConfig` on an unlocked manager, written out. -/
theorem saveConfig_eq (C : AEADCipher) (km : KMState)
    (client : AIClientState) (store : List AIConfig) (cfg : ConfigInput)
    (rng : RNG) (now : Nat) (key : Nat) (hk : km.masterKey = some key) :
    saveConfig C km client store cfg rng now =
      (let idr := if cfg.id = "" then generateUUID (advance 12 rng)
                  else (cfg.id, advance 12 rng)
       let configData : AIConfig :=
         { id := idr.1
           name := jsOr cfg.name "Default Config"
           apiUrl := cfg.apiUrl
           apiKeyEncrypted := C.enc key (drawBytes 12 rng)
             (encodeText cfg.apiKey)
           apiKeyIv := drawBytes 12 rng
           model := cfg.model
           defaultPrompt := jsOr cfg.defaultPrompt client.defaultPrompt
           isActive := true
           lastTested := now }
       (.ok (configData,
             { apiUrl := cfg.apiUrl, apiKey := cfg.apiKey,
               model := cfg.model,
               defaultPrompt := jsOr cfg.defaultPrompt
                 client.defaultPrompt },
             putConfig (deactivateOthers store configData.id store)
               configData),
        idr.2)) := by
  simp [saveConfig, encryptString, getMasterKey, hk]

/-- C6: when the manager is unlocked and the store's ids are unique (as
IndexedDB's key path guarantees), `saveConfig` succeeds and afterwards
exactly one config is active — every record whose id differs from the
saved one has been deactivated within the same save, and
`getActiveAIConfig` returns the saved record. -/
theorem saveConfig_single_active (C : AEADCipher) (km : KMState)
    (client : AIClientState) (store : List AIConfig) (cfg : ConfigInput)
    (rng : RNG) (now : Nat) (key : Nat)
    (hk : km.masterKey = some key)
    (hnd : (store.map AIConfig.id).Nodup) :
    ∃ cfgData client2 store2 rng2,
      saveConfig C km client store cfg rng now
        = (.ok (cfgData, client2, store2), rng2) ∧
      cfgData.isActive = true ∧
      (store2.filter (fun c => c.isActive)).length = 1 ∧
      (∀ c ∈ store2, c.isActive = true → c.id = cfgData.id) ∧
      getActiveAIConfig store2 = some cfgData := by
  rw [saveConfig_eq C km client store cfg rng now key hk]
  refine ⟨_, _, _, _, rfl, rfl, ?_, ?_, ?_⟩
  · exact (store_after_save _ rfl store hnd).1
  · exact (store_after_save _ rfl store hnd).2.1
  · exact (store_after_save _ rfl store hnd).2.2

/-- Witness for C6: activating config `"b"` while `"a"` is active leaves
exactly one active config. -/
theorem saveConfig_single_active_witness :
    ∃ cfgData client2 store2 rng2,
      saveConfig listC kmUnlocked clientA [cfgA] cfgB idRng 5
        = (.ok (cfgData, client2, store2), rng2) ∧
      cfgData.isActive = true ∧
      (store2.filter (fun c => c.isActive)).length = 1 ∧
      (∀ c ∈ store2, c.isActive = true → c.id = cfgData.id) ∧
      getActiveAIConfig store2 = some cfgData :=
  saveConfig_single_active listC kmUnlocked clientA [cfgA] cfgB idRng 5 7
    rfl (by decide)

/-- Witness for C9: deleting category `"c1"` holding one of two items. -/
theorem deleteCategory_reassigns_witness :
    (deleteCategory [catC1] [mkItem "a" "c1", mkItem "b" "x"] "c1" true).2
      = [mkItem "a" "c1", mkItem "b" "x"].map (fun it =>
          if it.categoryId = "c1"
          then { it with categoryId := "uncategorized" } else it) ∧
    (deleteCategory [catC1] [mkItem "a" "c1", mkItem "b" "x"] "c1"
        true).2.length
      = [mkItem "a" "c1", mkItem "b" "x"].length ∧
    (deleteCategory [catC1] [mkItem "a" "c1", mkItem "b" "x"] "c1" true).1
      = [catC1].filter (fun c => c.id ≠ "c1") :=
  deleteCategory_reassigns [catC1] [mkItem "a" "c1", mkItem "b" "x"] "c1"
    (by decide)

/-! ### C7: import of a single file is atomic -/

/-- C7: `processFile` persists nothing on any failure; a file that is
neither a valid image nor a valid video fails with the unsupported-type
error with the store untouched; and on success the single `addMediaItem`
appends exactly one item carrying a freshly generated UUID,
`createdAt = now`, empty `aiTags`, and the two (ciphertext, iv) envelope
pairs produced by the two independent encryptions — the thumbnail IV from
the first 12 random bytes, the file IV from the next 12, so differing
random draws give distinct IVs. -/
theorem processFile_atomic (C : AEADCipher) (km : KMState) (an : Analyzer)
    (store : List MediaItem) (file : RawFile) (categoryId : String)
    (rng : RNG) (now : Nat) (key : Nat)
    (hk : km.masterKey = some key) :
    (an.isValidImage file = false → an.isValidVideo file = false →
      processFile C km an store file categoryId rng now
        = (.error "Unsupported file type", store, rng)) ∧
    (∀ e, (processFile C km an store file categoryId rng now).1 = .error e →
      (processFile C km an store file categoryId rng now).2.1 = store) ∧
    (∀ item,
      (processFile C km an store file categoryId rng now).1 = .ok item →
      (processFile C km an store file categoryId rng now).2.1
          = store ++ [item] ∧
      item.id = (generateUUID (advance 12 (advance 12 rng))).1 ∧
      item.createdAt = now ∧
      item.aiTags = [] ∧
      item.thumbnailIv = drawBytes 12 rng ∧
      item.fileIv = drawBytes 12 (advance 12 rng) ∧
      (∃ thumb, item.thumbnailData = C.enc key (drawBytes 12 rng) thumb) ∧
      item.fileData = C.enc key (drawBytes 12 (advance 12 rng))
        file.content ∧
      (drawBytes 12 rng ≠ drawBytes 12 (advance 12 rng) →
        item.thumbnailIv ≠ item.fileIv)) := by
  by_cases hUns : (¬an.isValidImage file = true ∧ ¬an.isValidVideo file = true)
  · have heq : processFile C km an store file categoryId rng now
        = (.error "Unsupported file type", store, rng) := by
      simp only [processFile]
      rw [if_pos hUns]
    refine ⟨fun _ _ => heq, fun e _ => by rw [heq], fun item hit => ?_⟩
    rw [heq] at hit
    cases hit
  · have hcontra : an.isValidImage file = false →
        an.isValidVideo file = false →
        processFile C km an store file categoryId rng now
          = (.error "Unsupported file type", store, rng) := by
      intro h1 h2
      exact absurd ⟨by simp [h1], by simp [h2]⟩ hUns
    rcases hmd : (if an.isValidImage file = true then an.imageMetadata file
        else an.videoMetadata file) with e0 | md
    · have heq : processFile C km an store file categoryId rng now
          = (.error e0, store, rng) := by
        simp only [processFile]
        rw [if_neg hUns, hmd]
      refine ⟨hcontra, fun e _ => by rw [heq], fun item hit => ?_⟩
      rw [heq] at hit
      cases hit
    · rcases htb : (if an.isValidImage file = true then an.imageThumbnail file
          else an.videoThumbnail file) with e1 | tb
      · have heq : processFile C km an store file categoryId rng now
            = (.error e1, store, rng) := by
          simp only [processFile]
          rw [if_neg hUns, hmd, htb]
        refine ⟨hcontra, fun e _ => by rw [heq], fun item hit => ?_⟩
        rw [heq] at hit
        cases hit
      · cases hdup : store.any (fun y =>
            y.id = (generateUUID (advance 12 (advance 12 rng))).1) with
        | true =>
          have heq : processFile C km an store file categoryId rng now
              = (.error "ConstraintError", store,
                 (generateUUID (advance 12 (advance 12 rng))).2) := by
            simp only [processFile, hmd, htb,
              encryptFile_eq C km rng tb key hk,
              encryptFile_eq C km (advance 12 rng) file.content key hk,
              addMediaItem, hdup, if_true]
            rw [if_neg hUns]
          refine ⟨hcontra, fun e _ => by rw [heq], fun item hit => ?_⟩
          rw [heq] at hit
          cases hit
        | false =>
          have heq : processFile C km an store file categoryId rng now
              = (.ok
                  { id := (generateUUID (advance 12 (advance 12 rng))).1
                    categoryId := categoryId
                    type := if an.isValidImage file = true then "image"
                            else "video"
                    fileName := md.fileName
                    fileSize := md.size
                    width := md.width
                    height := md.height
                    duration := md.duration.getD 0
                    thumbnailData := C.enc key (drawBytes 12 rng) tb
                    thumbnailIv := drawBytes 12 rng
                    fileData := C.enc key (drawBytes 12 (advance 12 rng))
                      file.content
                    fileIv := drawBytes 12 (advance 12 rng)
                    mimeType := file.type
                    aiTags := []
                    aiPrompt := ""
                    aiModel := ""
                    createdAt := now
                    deletedOriginal := false },
                 store ++
                  [{ id := (generateUUID (advance 12 (advance 12 rng))).1
                     categoryId := categoryId
                     type := if an.isValidImage file = true then "image"
                             else "video"
                     fileName := md.fileName
                     fileSize := md.size
                     width := md.width
                     height := md.height
                     duration := md.duration.getD 0
                     thumbnailData := C.enc key (drawBytes 12 rng) tb
                     thumbnailIv := drawBytes 12 rng
                     fileData := C.enc key (drawBytes 12 (advance 12 rng))
                       file.content
                     fileIv := drawBytes 12 (advance 12 rng)
                     mimeType := file.type
                     aiTags := []
                     aiPrompt := ""
                     aiModel := ""
                     createdAt := now
                     deletedOriginal := false }],
                 (generateUUID (advance 12 (advance 12 rng))).2) := by
            simp only [processFile, hmd, htb,
              encryptFile_eq C km rng tb key hk,
              encryptFile_eq C km (advance 12 rng) file.content key hk,
              addMediaItem, hdup, Bool.false_eq_true, if_false]
            rw [if_neg hUns]
          refine ⟨hcontra, fun e he => ?_, fun item hit => ?_⟩
          · rw [heq] at he
            cases he
          · rw [heq] at hit
            injection hit with h
            refine ⟨by rw [heq, ← h], by rw [← h], by rw [← h], by rw [← h],
              by rw [← h], by rw [← h], ⟨tb, by rw [← h]⟩, by rw [← h],
              fun hne => by rw [← h]; exact hne⟩

/-- Witness for C7 at a concrete unlocked manager, analyzer and image
file. -/
theorem processFile_atomic_witness :
    (anPng.isValidImage fileOk1 = false → anPng.isValidVideo fileOk1 = false →
      processFile listC kmUnlocked anPng [] fileOk1 "c" idRng 3
        = (.error "Unsupported file type", [], idRng)) ∧
    (∀ e, (processFile listC kmUnlocked anPng [] fileOk1 "c" idRng 3).1
        = .error e →
      (processFile listC kmUnlocked anPng [] fileOk1 "c" idRng 3).2.1 = []) ∧
    (∀ item,
      (processFile listC kmUnlocked anPng [] fileOk1 "c" idRng 3).1
        = .ok item →
      (processFile listC kmUnlocked anPng [] fileOk1 "c" idRng 3).2.1
          = [] ++ [item] ∧
      item.id = (generateUUID (advance 12 (advance 12 idRng))).1 ∧
      item.createdAt = 3 ∧
      item.aiTags = [] ∧
      item.thumbnailIv = drawBytes 12 idRng ∧
      item.fileIv = drawBytes 12 (advance 12 idRng) ∧
      (∃ thumb, item.thumbnailData
          = listC.enc 7 (drawBytes 12 idRng) thumb) ∧
      item.fileData = listC.enc 7 (drawBytes 12 (advance 12 idRng))
        fileOk1.content ∧
      (drawBytes 12 idRng ≠ drawBytes 12 (advance 12 idRng) →
        item.thumbnailIv ≠ item.fileIv)) :=
  processFile_atomic listC kmUnlocked anPng [] fileOk1 "c" idRng 3 7 rfl

/-! ### C8: batch import is per-file and best-effort -/

/-- Every batch entry carries its file's name, in input order: one result
per input file, whatever each file's outcome. -/
theorem importFiles_names (C : AEADCipher) (km : KMState) (an : Analyzer)
    (catId : String) (now : Nat) :
    ∀ (files : List RawFile) (store : List MediaItem) (rng : RNG),
    (importFiles C km an store files catId rng now).1.map
        ImportResult.fileName = files.map RawFile.name := by
  intro files
  induction files with
  | nil =>
      intro store rng
      simp [importFiles]
  | cons f rest ih =>
      intro store rng
      simp only [importFiles]
      rcases hr : (processFile C km an store f catId rng now).1 with e | it <;>
        simp [hr, ih]

/-- C8: `importFiles` returns one `{success, item|error, fileName}`
result per input file in input order (the result list mirrors the input
names and lengths; a single failure never aborts the batch), and on the
concrete three-file batch whose second file has an unsupported type it
yields success, failure, success, with exactly the two successful items
persisted. -/
theorem importFiles_batch (C : AEADCipher) (km : KMState) (an : Analyzer)
    (store : List MediaItem) (files : List RawFile) (catId : String)
    (rng : RNG) (now : Nat) :
    ((importFiles C km an store files catId rng now).1.map
        ImportResult.fileName = files.map RawFile.name ∧
     (importFiles C km an store files catId rng now).1.length
        = files.length) ∧
    ((importFiles listC kmUnlocked anPng [] [fileOk1, fileBad, fileOk2]
        "c" idRng 3).1.map ImportResult.success = [true, false, true] ∧
     (importFiles listC kmUnlocked anPng [] [fileOk1, fileBad, fileOk2]
        "c" idRng 3).2.1.map MediaItem.fileName = ["a.png", "c.png"]) := by
  refine ⟨⟨importFiles_names C km an catId now files store rng, ?_⟩, ?_, ?_⟩
  · have h := congrArg List.length
      (importFiles_names C km an catId now files store rng)
    simpa using h
  · decide
  · decide

end DatasetManager
